import Mathlib

/-!
Shallow embedding of the authentication / session-registry core of
jwt-pizza-service (src/src/factoryService.js, class `DB`).

The persistence layer is modelled as explicit state: the `user`, `userRole`,
`franchise` and `auth` tables become lists of rows threaded through each
operation.  Fallible operations return `Except DBError`.  External
collaborators (bcrypt, the MySQL driver) are modelled by their observable
contract at the call sites that appear in the source.
-/

namespace JwtPizza

/-- Modelled from the spec: `model/model.js` (the `Role` enumeration) is not in
src; the spec fixes the role-kind enumeration as {Diner, Franchisee, Admin}. -/
inductive Role where
  | diner
  | franchisee
  | admin
deriving DecidableEq

/-- A requested role assignment as passed to `DB.addUser`: `{role, object}`
where `object` is a franchise name for Franchisee assignments. -/
structure RoleAssignment where
  role : Role
  object : String
deriving DecidableEq

/-- A row of the `user` table: `password` holds the stored bcrypt hash. -/
structure UserRow where
  id : Nat
  name : String
  email : String
  password : String
deriving DecidableEq

/-- A row of the `userRole` table. -/
structure UserRoleRow where
  userId : Nat
  role : Role
  objectId : Nat
deriving DecidableEq

/-- A row of the `franchise` table (only `id` and `name` are read by the
operations embedded here). -/
structure Franchise where
  id : Nat
  name : String
deriving DecidableEq

/-- The database state visible to the embedded operations.  `auth` is the
session registry: rows `(token signature, userId)`.  `nextUserId` models
the AUTO_INCREMENT id handed out by the next `INSERT INTO user`. -/
structure DBState where
  users : List UserRow
  userRoles : List UserRoleRow
  franchises : List Franchise
  auth : List (String × Nat)
  nextUserId : Nat
deriving DecidableEq

/-- JavaScript `s.split('.')`: split at every dot, keeping empty segments;
the empty string yields `[""]`. -/
def splitDotAux : List Char → List Char → List String
  | [], acc => [String.mk acc.reverse]
  | c :: rest, acc =>
    if c = '.' then String.mk acc.reverse :: splitDotAux rest []
    else splitDotAux rest (c :: acc)

/-- `token.split('.')` as used by `DB.getTokenSignature`. -/
def jsSplitDot (s : String) : List String :=
  splitDotAux s.data []

/-- `DB.getTokenSignature`: `parts = token.split('.')`; if `parts.length > 2`
return `parts[2]`, else return `''`. -/
def getTokenSignature (token : String) : String :=
  match jsSplitDot token with
  | _ :: _ :: sig :: _ => sig
  | _ => ""

/-- `SELECT userId FROM auth WHERE token=?` has a row: point lookup of a
signature in the session registry. -/
def registryHas (a : List (String × Nat)) (sig : String) : Bool :=
  a.any (fun r => r.1 == sig)

/-- `INSERT INTO auth (token, userId) VALUES (?, ?)`.  Modelled from the spec:
the `auth` table schema (`dbModel.js`) is not in src; the spec requires the
backing store to "support unique-ish idempotent insert", so re-inserting an
already-recorded signature leaves the registry unchanged. -/
def registryInsert (a : List (String × Nat)) (sig : String) (uid : Nat) :
    List (String × Nat) :=
  if registryHas a sig then a else a ++ [(sig, uid)]

/-- `DELETE FROM auth WHERE token=?`: removes every row with this signature. -/
def registryDelete (a : List (String × Nat)) (sig : String) :
    List (String × Nat) :=
  a.filter (fun r => r.1 != sig)

/-- `DB.loginUser(userId, token)`: extracts the signature and records
signature → userId in the `auth` table. -/
def loginUser (st : DBState) (userId : Nat) (token : String) : DBState :=
  { st with auth := registryInsert st.auth (getTokenSignature token) userId }

/-- `DB.isLoggedIn(token)`: extracts the signature and reports whether the
`auth` table has a row for it. -/
def isLoggedIn (st : DBState) (token : String) : Bool :=
  registryHas st.auth (getTokenSignature token)

/-- `DB.logoutUser(token)`: extracts the signature and deletes its rows from
the `auth` table. -/
def logoutUser (st : DBState) (token : String) : DBState :=
  { st with auth := registryDelete st.auth (getTokenSignature token) }

/-- Errors propagated out of a `DB` operation: `statusError` is a thrown
`StatusCodeError(message, status)`; `internalError` is any other thrown
`Error` (bcrypt argument errors, driver bind errors, `getID`'s failure). -/
inductive DBError where
  | statusError (message : String) (statusCode : Nat)
  | internalError (message : String)
deriving DecidableEq

/-- Modelled from the spec: bcrypt is the external Credential Store
collaborator (`hash(password) -> storedHash`); a deterministic injective
encoding stands in for the salted hash, with `verify` below comparing
against it. -/
def bcryptHash (p : String) : String :=
  "$2b$10$" ++ p

/-- `bcrypt.compare(data, hash)`: rejects with an `Error` when `data` is
`undefined` (as in `updateUser`'s re-fetch without a password); otherwise
verifies the candidate against the stored hash. -/
def bcryptCompare (data : Option String) (hash : String) : Except DBError Bool :=
  match data with
  | none => .error (.internalError "data and hash arguments required")
  | some p => .ok (bcryptHash p == hash)

/-- The public user view returned by `DB.getUser`: `{...user, roles,
password: undefined}` with roles mapped to `{objectId: r.objectId ||
undefined, role: r.role}` (objectId 0 becomes `undefined`). -/
structure PublicUser where
  id : Nat
  name : String
  email : String
  roles : List (Role × Option Nat)
deriving DecidableEq

/-- The role list `DB.getUser` builds from the `userRole` rows of a user. -/
def rolesOf (st : DBState) (userId : Nat) : List (Role × Option Nat) :=
  (st.userRoles.filter (fun r => r.userId == userId)).map
    (fun r => (r.role, if r.objectId == 0 then none else some r.objectId))

/-- `DB.getUser(email, password)`: `SELECT * FROM user WHERE email=?` (the
driver rejects an `undefined` bind parameter); if no row, or the bcrypt
check fails, throw `StatusCodeError('unknown user', 404)`; otherwise return
the public view with the user's roles. -/
def getUser (st : DBState) (email password : Option String) :
    Except DBError PublicUser :=
  match email with
  | none => .error (.internalError "Bind parameters must not contain undefined")
  | some e =>
    match st.users.find? (fun u => u.email == e) with
    | none => .error (.statusError "unknown user" 404)
    | some user =>
      match bcryptCompare password user.password with
      | .error err => .error err
      | .ok ok =>
        if ok then
          .ok { id := user.id, name := user.name, email := user.email,
                roles := rolesOf st user.id }
        else .error (.statusError "unknown user" 404)

/-- `DB.updateUser(userId, email, password)`: build the SET clause from the
fields that are present (password is hashed), run the UPDATE when the
clause is non-empty, then `return this.getUser(email, password)`.  The pair
carries the result of that re-fetch and the state after the UPDATE (the
UPDATE is not rolled back when the re-fetch throws). -/
def updateUser (st : DBState) (userId : Nat) (email password : Option String) :
    Except DBError PublicUser × DBState :=
  let changed := password.isSome || email.isSome
  let st' :=
    if changed then
      { st with users := st.users.map (fun u =>
          if u.id == userId then
            { u with password := (password.map bcryptHash).getD u.password,
                     email := email.getD u.email }
          else u) }
    else st
  (getUser st' email password, st')

/-- `DB.getID(connection, 'name', value, 'franchise')` as called from
`addUser`: `SELECT id FROM franchise WHERE name=?`; first row's id, or
throw `Error('No ID found')`. -/
def getID (franchises : List Franchise) (value : String) : Except DBError Nat :=
  match franchises.find? (fun f => f.name == value) with
  | some row => .ok row.id
  | none => .error (.internalError "No ID found")

/-- The role-insertion loop of `DB.addUser`: Franchisee assignments resolve
`role.object` to a franchise id via `getID` (throwing aborts the loop);
every other role kind is inserted with objectId 0.  The returned state
keeps the rows inserted before a failure (no transaction). -/
def insertRoles (st : DBState) (userId : Nat) :
    List RoleAssignment → Except DBError Unit × DBState
  | [] => (.ok (), st)
  | role :: rest =>
    match role.role with
    | Role.franchisee =>
      match getID st.franchises role.object with
      | .ok franchiseId =>
        insertRoles
          { st with userRoles :=
              st.userRoles ++ [⟨userId, role.role, franchiseId⟩] }
          userId rest
      | .error e => (.error e, st)
    | r =>
      insertRoles
        { st with userRoles := st.userRoles ++ [⟨userId, r, 0⟩] }
        userId rest

/-- The argument to `DB.addUser`. -/
structure NewUser where
  name : String
  email : String
  password : String
  roles : List RoleAssignment
deriving DecidableEq

/-- `DB.addUser`'s return value: `{ ...user, id: userId, password:
undefined }` (the requested roles, echoed back, plus the new id). -/
structure AddedUser where
  id : Nat
  name : String
  email : String
  roles : List RoleAssignment
deriving DecidableEq

/-- `DB.addUser(user)`: hash the password, `INSERT INTO user` (the new row
stays even if a later role insert throws), then run the role-insertion
loop; on success return the user echo with the new id. -/
def addUser (st : DBState) (user : NewUser) :
    Except DBError AddedUser × DBState :=
  let userId := st.nextUserId
  let st1 :=
    { st with
        users := st.users ++
          [⟨userId, user.name, user.email, bcryptHash user.password⟩],
        nextUserId := st.nextUserId + 1 }
  match insertRoles st1 userId user.roles with
  | (.ok _, st2) =>
    (.ok { id := userId, name := user.name, email := user.email,
           roles := user.roles }, st2)
  | (.error e, st2) => (.error e, st2)

/-- Modelled from the spec: `authRouter.js`, the only caller of
`DB.loginUser`, is not in src.  The spec has the Token Issuer mint
three-part `header.payload.signature` tokens with base64url-ish (hence
non-empty) segments, so every token the service activates has a non-empty
signature; `logoutUser` may be reached with any presented token.  These
are the session-registry states reachable through the service. -/
inductive ReachableAuth : List (String × Nat) → Prop where
  | nil : ReachableAuth []
  | login (a : List (String × Nat)) (uid : Nat) (t : String) :
      ReachableAuth a → getTokenSignature t ≠ "" →
      ReachableAuth (registryInsert a (getTokenSignature t) uid)
  | logout (a : List (String × Nat)) (t : String) :
      ReachableAuth a →
      ReachableAuth (registryDelete a (getTokenSignature t))

/-- N logins for the same user, one `DB.loginUser` per token, in some
serialization order (each login is a single-statement registry insert). -/
def loginAll (st : DBState) (uid : Nat) (toks : List String) : DBState :=
  toks.foldl (fun s t => loginUser s uid t) st

/-! ## Registry lemmas -/

theorem registryHas_delete (a : List (String × Nat)) (sig : String) :
    registryHas (registryDelete a sig) sig = false := by
  simp [registryHas, registryDelete, List.any_eq_true, List.mem_filter]

theorem registryHas_insert_self (a : List (String × Nat)) (sig : String)
    (uid : Nat) : registryHas (registryInsert a sig uid) sig = true := by
  unfold registryInsert
  split
  · assumption
  · simp [registryHas, List.any_append]

theorem registryInsert_idem (a : List (String × Nat)) (sig : String)
    (uid : Nat) :
    registryInsert (registryInsert a sig uid) sig uid =
      registryInsert a sig uid := by
  conv_lhs => rw [registryInsert]
  rw [if_pos (registryHas_insert_self a sig uid)]

theorem registryHas_eq_false (a : List (String × Nat)) (sig : String)
    (h : ∀ r ∈ a, r.1 ≠ sig) : registryHas a sig = false := by
  simp only [registryHas, List.any_eq_false, beq_iff_eq]
  exact h

theorem getTokenSignature_eq_empty_of_short (t : String)
    (h : (jsSplitDot t).length < 3) : getTokenSignature t = "" := by
  unfold getTokenSignature
  rcases hm : jsSplitDot t with _ | ⟨a, _ | ⟨b, _ | ⟨c, tl⟩⟩⟩
  · rfl
  · rfl
  · rfl
  · rw [hm] at h
    simp at h
    omega

/-- Every signature recorded in a service-reachable registry is non-empty. -/
theorem reachable_no_empty_sig {a : List (String × Nat)}
    (h : ReachableAuth a) : ∀ r ∈ a, r.1 ≠ "" := by
  induction h with
  | nil =>
    intro r hr
    cases hr
  | login a uid t _ hsig ih =>
    intro r hr
    unfold registryInsert at hr
    split at hr
    · exact ih r hr
    · rcases List.mem_append.mp hr with h1 | h2
      · exact ih r h1
      · simp only [List.mem_singleton] at h2
        subst h2
        exact hsig
  | logout a t _ ih =>
    intro r hr
    unfold registryDelete at hr
    exact ih r (List.mem_filter.mp hr).1

/-! ## Claim theorems -/

/-- The empty database state (fresh service instance). -/
def emptyDB : DBState := ⟨[], [], [], [], 1⟩

/-- C1: a token whose signature is active becomes inactive after
`DB.logoutUser` on that token (with no intervening activation): a
deactivated token is treated as having no caller. -/
theorem logout_then_inactive (st : DBState) (t : String)
    (_h : isLoggedIn st t = true) :
    isLoggedIn (logoutUser st t) t = false := by
  unfold isLoggedIn logoutUser
  exact registryHas_delete st.auth (getTokenSignature t)

theorem logout_then_inactive_witness :
    isLoggedIn (loginUser emptyDB 1 "h.p.s") "h.p.s" = true ∧
    isLoggedIn (logoutUser (loginUser emptyDB 1 "h.p.s") "h.p.s") "h.p.s"
      = false :=
  ⟨by rfl,
   logout_then_inactive (loginUser emptyDB 1 "h.p.s") "h.p.s" (by rfl)⟩

/-- C2: a token string with fewer than three dot-delimited segments is
reported inactive by `DB.isLoggedIn` in every service-reachable registry
state (and the embedded operation is total, so nothing is thrown). -/
theorem malformed_token_inactive (st : DBState) (t : String)
    (hr : ReachableAuth st.auth) (hlen : (jsSplitDot t).length < 3) :
    isLoggedIn st t = false := by
  unfold isLoggedIn
  rw [getTokenSignature_eq_empty_of_short t hlen]
  exact registryHas_eq_false st.auth "" (reachable_no_empty_sig hr)

/-- A registry holding one real session, reached by a single login. -/
def oneSessionDB : DBState :=
  ⟨[], [], [], registryInsert [] (getTokenSignature "h.p.s") 1, 1⟩

theorem malformed_token_inactive_witness :
    (jsSplitDot "a.b").length < 3 ∧ isLoggedIn oneSessionDB "a.b" = false :=
  ⟨by decide,
   malformed_token_inactive oneSessionDB "a.b"
     (ReachableAuth.login [] 1 "h.p.s" ReachableAuth.nil (by decide))
     (by decide)⟩

/-- C5: `DB.loginUser` followed immediately by `DB.isLoggedIn` on the same
token observes `true` — the registry is read-after-write consistent. -/
theorem login_then_active (st : DBState) (uid : Nat) (t : String) :
    isLoggedIn (loginUser st uid t) t = true := by
  unfold isLoggedIn loginUser
  exact registryHas_insert_self st.auth (getTokenSignature t) uid

/-- C6: a duplicate `DB.loginUser` with the same token signature is
harmless — it does not fail (the operation is total) and leaves the
registry state identical to the state after a single call. -/
theorem login_idempotent (st : DBState) (uid : Nat) (t : String) :
    loginUser (loginUser st uid t) uid t = loginUser st uid t := by
  unfold loginUser
  simp only
  rw [registryInsert_idem]

/-- A one-user database: user 7 registered with password "a" and an active
session for a token with signature "s". -/
def sessionDB : DBState :=
  ⟨[⟨7, "pizza diner", "old@test.com", bcryptHash "a"⟩],
   [⟨7, Role.diner, 0⟩], [], [("s", 7)], 8⟩

/-- C4: a login with an existing email but wrong password produces exactly
the same observable error as a login with a nonexistent email — both are
`StatusCodeError('unknown user', 404)`, indistinguishable to the caller. -/
theorem login_failure_indistinguishable (st : DBState) (e1 p1 e2 p2 : String)
    (h1 : ∃ u, st.users.find? (fun u => u.email == e1) = some u ∧
        bcryptHash p1 ≠ u.password)
    (h2 : st.users.find? (fun u => u.email == e2) = none) :
    getUser st (some e1) (some p1) = getUser st (some e2) (some p2) ∧
    getUser st (some e1) (some p1) =
      .error (.statusError "unknown user" 404) := by
  obtain ⟨u, hu, hp⟩ := h1
  simp only [getUser, hu, h2, bcryptCompare]
  simp [hp]

theorem login_failure_indistinguishable_witness :
    (∃ u, sessionDB.users.find? (fun u => u.email == "old@test.com")
        = some u ∧ bcryptHash "wrong" ≠ u.password) ∧
    sessionDB.users.find? (fun u => u.email == "nobody@test.com") = none ∧
    getUser sessionDB (some "old@test.com") (some "wrong") =
      getUser sessionDB (some "nobody@test.com") (some "x") :=
  ⟨⟨⟨7, "pizza diner", "old@test.com", bcryptHash "a"⟩, by decide, by decide⟩,
   by decide,
   (login_failure_indistinguishable sessionDB "old@test.com" "wrong"
      "nobody@test.com" "x"
      ⟨⟨7, "pizza diner", "old@test.com", bcryptHash "a"⟩, by decide, by decide⟩
      (by decide)).1⟩

/-- C8: `DB.updateUser` leaves the session registry untouched: every token
is exactly as active after an email/password update as before it, so a
password change does not revoke existing sessions. -/
theorem updateUser_preserves_sessions (st : DBState) (uid : Nat)
    (e p : Option String) (t : String) (_hchange : e.isSome ∨ p.isSome) :
    isLoggedIn (updateUser st uid e p).2 t = isLoggedIn st t := by
  unfold updateUser isLoggedIn
  dsimp only
  split <;> rfl

theorem updateUser_preserves_sessions_witness :
    ((some "new@test.com" : Option String).isSome ∨
      (none : Option String).isSome) ∧
    isLoggedIn (updateUser sessionDB 7 (some "new@test.com") none).2 "h.p.s"
      = isLoggedIn sessionDB "h.p.s" :=
  ⟨Or.inl rfl,
   updateUser_preserves_sessions sessionDB 7 (some "new@test.com") none
     "h.p.s" (Or.inl rfl)⟩

/-- C3 (code bug): a self-update carrying only a new email does not return
the updated record — `updateUser` re-fetches via `getUser(email, password)`
with the password `undefined`, so `bcrypt.compare` rejects and the call
throws, even though the UPDATE itself already changed the email in the
`user` table. -/
theorem email_only_update_errors :
    (updateUser sessionDB 7 (some "new@test.com") none).1 =
      .error (.internalError "data and hash arguments required") ∧
    ((updateUser sessionDB 7 (some "new@test.com") none).2.users.find?
        (fun u => u.id == 7)).map (fun u => u.email) = some "new@test.com" :=
  ⟨by rfl, by rfl⟩

/-! ## addUser lemmas -/

/-- The role-insertion loop never touches the `user` table. -/
theorem insertRoles_users :
    ∀ (roles : List RoleAssignment) (st : DBState) (uid : Nat),
      ((insertRoles st uid roles).2).users = st.users
  | [], _, _ => rfl
  | role :: rest, st, uid => by
    rcases role with ⟨rk, obj⟩
    cases rk with
    | franchisee =>
      simp only [insertRoles]
      cases hf : getID st.franchises obj with
      | ok fid => exact insertRoles_users rest _ uid
      | error e => rfl
    | diner => exact insertRoles_users rest _ uid
    | admin => exact insertRoles_users rest _ uid

/-- If some requested Franchisee assignment names a franchise absent from
the `franchise` table, the role-insertion loop throws `'No ID found'`. -/
theorem insertRoles_err :
    ∀ (roles : List RoleAssignment) (st : DBState) (uid : Nat),
      (∃ r ∈ roles, r.role = Role.franchisee ∧
          st.franchises.find? (fun f => f.name == r.object) = none) →
      (insertRoles st uid roles).1 = .error (.internalError "No ID found")
  | [], _, _, h => by simp at h
  | role :: rest, st, uid, h => by
    rcases role with ⟨rk, obj⟩
    cases rk with
    | franchisee =>
      simp only [insertRoles]
      cases hf : st.franchises.find? (fun f => f.name == obj) with
      | none => simp only [getID, hf]
      | some row =>
        simp only [getID, hf]
        apply insertRoles_err rest _ uid
        rcases h with ⟨r, hm, hfr, hnone⟩
        rcases List.mem_cons.mp hm with h1 | h2
        · rw [h1] at hnone
          simp only at hnone
          rw [hf] at hnone
          cases hnone
        · exact ⟨r, h2, hfr, hnone⟩
    | diner =>
      simp only [insertRoles]
      apply insertRoles_err rest _ uid
      rcases h with ⟨r, hm, hfr, hnone⟩
      rcases List.mem_cons.mp hm with h1 | h2
      · rw [h1] at hfr
        cases hfr
      · exact ⟨r, h2, hfr, hnone⟩
    | admin =>
      simp only [insertRoles]
      apply insertRoles_err rest _ uid
      rcases h with ⟨r, hm, hfr, hnone⟩
      rcases List.mem_cons.mp hm with h1 | h2
      · rw [h1] at hfr
        cases hfr
      · exact ⟨r, h2, hfr, hnone⟩

/-- `addUser` always leaves the freshly inserted user row in the `user`
table, whether or not a later role insert throws. -/
theorem addUser_users (st : DBState) (u : NewUser) :
    (addUser st u).2.users = st.users ++
      [⟨st.nextUserId, u.name, u.email, bcryptHash u.password⟩] := by
  unfold addUser
  dsimp only
  rcases hir : insertRoles
      { st with
          users := st.users ++
            [⟨st.nextUserId, u.name, u.email, bcryptHash u.password⟩],
          nextUserId := st.nextUserId + 1 }
      st.nextUserId u.roles with ⟨res, st2⟩
  have husers := insertRoles_users u.roles
      { st with
          users := st.users ++
            [⟨st.nextUserId, u.name, u.email, bcryptHash u.password⟩],
          nextUserId := st.nextUserId + 1 }
      st.nextUserId
  rw [hir] at husers
  cases res with
  | ok _ => simpa using husers
  | error e => simpa using husers

/-- `addUser` fails when a requested Franchisee assignment references a
missing franchise. -/
theorem addUser_err_of_bad_franchise (st : DBState) (u : NewUser)
    (h : ∃ r ∈ u.roles, r.role = Role.franchisee ∧
        st.franchises.find? (fun f => f.name == r.object) = none) :
    (addUser st u).1 = .error (.internalError "No ID found") := by
  unfold addUser
  dsimp only
  rcases hir : insertRoles
      { st with
          users := st.users ++
            [⟨st.nextUserId, u.name, u.email, bcryptHash u.password⟩],
          nextUserId := st.nextUserId + 1 }
      st.nextUserId u.roles with ⟨res, st2⟩
  have herr := insertRoles_err u.roles
      { st with
          users := st.users ++
            [⟨st.nextUserId, u.name, u.email, bcryptHash u.password⟩],
          nextUserId := st.nextUserId + 1 }
      st.nextUserId h
  rw [hir] at herr
  dsimp only at herr
  subst herr
  rfl

/-- C7: `DB.addUser` raises rather than recording a Franchisee role whose
scope object does not name an existing franchise. -/
theorem addUser_bad_franchise_write_fails (st : DBState) (u : NewUser)
    (h : ∃ r ∈ u.roles, r.role = Role.franchisee ∧
        st.franchises.find? (fun f => f.name == r.object) = none) :
    (addUser st u).1 = .error (.internalError "No ID found") :=
  addUser_err_of_bad_franchise st u h

/-- A registration request carrying a Franchisee role for a franchise name
that exists in no state with an empty `franchise` table. -/
def badFranchisee : NewUser :=
  ⟨"f", "f@test.com", "pw", [⟨Role.franchisee, "nope"⟩]⟩

theorem addUser_bad_franchise_write_fails_witness :
    (∃ r ∈ badFranchisee.roles, r.role = Role.franchisee ∧
        emptyDB.franchises.find? (fun f => f.name == r.object) = none) ∧
    (addUser emptyDB badFranchisee).1 =
      .error (.internalError "No ID found") :=
  ⟨⟨⟨Role.franchisee, "nope"⟩, by decide, rfl, by decide⟩,
   addUser_bad_franchise_write_fails emptyDB badFranchisee
     ⟨⟨Role.franchisee, "nope"⟩, by decide, rfl, by decide⟩⟩

/-- C10: when `addUser` fails on a Franchisee assignment with a missing
franchise, the user row inserted earlier in the same call stays in the
`user` table — the failed registration is not rolled back. -/
theorem addUser_error_leaves_user_row (st : DBState) (u : NewUser)
    (h : ∃ r ∈ u.roles, r.role = Role.franchisee ∧
        st.franchises.find? (fun f => f.name == r.object) = none) :
    (∃ e, (addUser st u).1 = Except.error e) ∧
    (⟨st.nextUserId, u.name, u.email, bcryptHash u.password⟩ : UserRow) ∈
      (addUser st u).2.users := by
  refine ⟨⟨.internalError "No ID found", addUser_err_of_bad_franchise st u h⟩, ?_⟩
  rw [addUser_users]
  simp

theorem addUser_error_leaves_user_row_witness :
    (∃ r ∈ badFranchisee.roles, r.role = Role.franchisee ∧
        emptyDB.franchises.find? (fun f => f.name == r.object) = none) ∧
    (∃ e, (addUser emptyDB badFranchisee).1 = Except.error e) ∧
    (⟨1, "f", "f@test.com", bcryptHash "pw"⟩ : UserRow) ∈
      (addUser emptyDB badFranchisee).2.users :=
  ⟨⟨⟨Role.franchisee, "nope"⟩, by decide, rfl, by decide⟩,
   addUser_error_leaves_user_row emptyDB badFranchisee
     ⟨⟨Role.franchisee, "nope"⟩, by decide, rfl, by decide⟩⟩

/-! ## Parallel-login lemmas -/

theorem registryHas_insert_mono (a : List (String × Nat)) (sig : String)
    (uid : Nat) (s : String) (h : registryHas a s = true) :
    registryHas (registryInsert a sig uid) s = true := by
  unfold registryInsert
  split
  · exact h
  · simp only [registryHas, List.any_append]
    rw [registryHas] at h
    rw [h]
    rfl

theorem registryHas_insert_of_ne (a : List (String × Nat)) (sig : String)
    (uid : Nat) (s : String) (hne : s ≠ sig)
    (h : registryHas a s = false) :
    registryHas (registryInsert a sig uid) s = false := by
  unfold registryInsert
  split
  · exact h
  · simp only [registryHas, List.any_append]
    rw [registryHas] at h
    rw [h]
    simp [beq_iff_eq]
    exact fun he => hne he.symm

theorem registryInsert_length_of_fresh (a : List (String × Nat))
    (sig : String) (uid : Nat) (h : registryHas a sig = false) :
    (registryInsert a sig uid).length = a.length + 1 := by
  unfold registryInsert
  rw [h]
  simp

/-- Once a token is active, later logins (of any token) keep it active. -/
theorem loginAll_preserves (st : DBState) (uid : Nat) (toks : List String)
    (t : String) (h : isLoggedIn st t = true) :
    isLoggedIn (loginAll st uid toks) t = true := by
  induction toks generalizing st with
  | nil => exact h
  | cons t0 rest ih =>
    exact ih (loginUser st uid t0)
      (registryHas_insert_mono st.auth (getTokenSignature t0) uid
        (getTokenSignature t) h)

/-- C9: N logins for the same user with pairwise distinct signatures, all
fresh, leave every one of the N tokens simultaneously active and grow the
registry by exactly N rows — sessions are additive and no login
invalidates another. -/
theorem parallel_logins_additive (st : DBState) (uid : Nat)
    (toks : List String) (hdist : (toks.map getTokenSignature).Nodup)
    (hfresh : ∀ t ∈ toks, isLoggedIn st t = false) :
    (∀ t ∈ toks, isLoggedIn (loginAll st uid toks) t = true) ∧
    (loginAll st uid toks).auth.length = st.auth.length + toks.length := by
  induction toks generalizing st with
  | nil => exact ⟨fun t ht => absurd ht (List.not_mem_nil t), rfl⟩
  | cons t0 rest ih =>
    rw [List.map_cons, List.nodup_cons] at hdist
    obtain ⟨hnot, hdrest⟩ := hdist
    have hfresh0 : isLoggedIn st t0 = false := hfresh t0 (List.mem_cons_self t0 rest)
    have hfresh' : ∀ t ∈ rest, isLoggedIn (loginUser st uid t0) t = false := by
      intro t ht
      have hne : getTokenSignature t ≠ getTokenSignature t0 := by
        intro he
        exact hnot (he ▸ List.mem_map_of_mem getTokenSignature ht)
      exact registryHas_insert_of_ne st.auth (getTokenSignature t0) uid
        (getTokenSignature t) hne (hfresh t (List.mem_cons_of_mem t0 ht))
    obtain ⟨ihact, ihlen⟩ := ih (loginUser st uid t0) hdrest hfresh'
    refine ⟨?_, ?_⟩
    · intro t ht
      rcases List.mem_cons.mp ht with h1 | h2
      · subst h1
        exact loginAll_preserves (loginUser st uid t) uid rest t
          (login_then_active st uid t)
      · exact ihact t h2
    · have hlen0 : (loginUser st uid t0).auth.length = st.auth.length + 1 :=
        registryInsert_length_of_fresh st.auth (getTokenSignature t0) uid hfresh0
      calc (loginAll st uid (t0 :: rest)).auth.length
          = (loginUser st uid t0).auth.length + rest.length := ihlen
        _ = st.auth.length + (t0 :: rest).length := by rw [hlen0]; simp; omega

theorem parallel_logins_additive_witness :
    ((["h.p.s1", "h.p.s2"].map getTokenSignature).Nodup ∧
      ∀ t ∈ ["h.p.s1", "h.p.s2"], isLoggedIn emptyDB t = false) ∧
    (∀ t ∈ ["h.p.s1", "h.p.s2"],
        isLoggedIn (loginAll emptyDB 1 ["h.p.s1", "h.p.s2"]) t = true) ∧
    (loginAll emptyDB 1 ["h.p.s1", "h.p.s2"]).auth.length =
      emptyDB.auth.length + 2 :=
  ⟨⟨by decide, by decide⟩,
   parallel_logins_additive emptyDB 1 ["h.p.s1", "h.p.s2"]
     (by decide) (by decide)⟩

end JwtPizza
